import Mathlib

/-!
Verification of the Explainable-AI repository against its natural-language
specification.  The Python sources are shallowly embedded: pure numerical
code becomes Lean functions over `ℚ`, control flow of the conversion
scripts becomes explicit branching over an abstract environment, and the
HTTP-route and import declarations are transcribed as literal data.
-/

namespace ExplainableAI

/-! ## HTTP surface (main.py, app/main.py, app/routes/predictions.py) -/

/-- One FastAPI route declaration: HTTP method, literal path string,
whether the handler parameter list declares an uploaded file
(`file: UploadFile = File(...)`), and whether the handler returns a JSON
object (a Python dict). -/
structure Route where
  method : String
  path : String
  acceptsFileUpload : Bool
  returnsJson : Bool
  deriving DecidableEq, Repr

/-- Routes declared in `main.py`: the single decorator
`app.post("/predict")` on `predict`, whose handler takes
`file: UploadFile = File(...)` and returns a dict. -/
def mainPyRoutes : List Route :=
  [{ method := "POST", path := "/predict", acceptsFileUpload := true, returnsJson := true }]

/-- Routes declared by the live (uncommented) code of `app/main.py`:
the single decorator `app.post("/predict")` on `predict`. -/
def appMainPyRoutes : List Route :=
  [{ method := "POST", path := "/predict", acceptsFileUpload := true, returnsJson := true }]

/-- Routes declared on the `APIRouter` of `app/routes/predictions.py`:
`router.post("/predict/pneumonia")` and `router.post("/predict/skin_cancer")`. -/
def predictionsRouterRoutes : List Route :=
  [{ method := "POST", path := "/predict/pneumonia", acceptsFileUpload := true, returnsJson := true },
   { method := "POST", path := "/predict/skin_cancer", acceptsFileUpload := true, returnsJson := true }]

/-- Every `include_router` call in the repository, as pairs of
(application file, path prepended to the router's paths).  No file in the
repository calls `include_router`, so this list is empty: the router's
paths are declared verbatim, with nothing prepended. -/
def includeRouterCalls : List (String × String) := []

/-- All route declarations appearing anywhere in the repository. -/
def allDeclaredRoutes : List Route :=
  mainPyRoutes ++ appMainPyRoutes ++ predictionsRouterRoutes

/-- The set of declared paths, without duplicates. -/
def declaredPaths : List String :=
  (allDeclaredRoutes.map Route.path).dedup

/-! ## Module loading of app/routes/predictions.py (ml_models.py exports) -/

/-- Top-level names bound in `app/models/ml_models.py` when the module
body runs: the imported names, the single class, and the one function. -/
def mlModelsTopLevelNames : List String :=
  ["np", "pd", "train_test_split", "RandomForestClassifier",
   "GradientBoostingClassifier", "accuracy_score", "classification_report",
   "confusion_matrix", "shap", "lime", "plt", "pickle", "warnings",
   "ExplainableHealthcareModel", "train_heart_disease_model"]

/-- The classes defined at top level in `app/models/ml_models.py`. -/
def mlModelsClasses : List String := ["ExplainableHealthcareModel"]

/-- Top-level names bound in `model.py`. -/
def modelPyTopLevelNames : List String := ["torch", "nn", "models", "PneumoniaModel"]

/-- Loading `app/routes/predictions.py` executes its imports in order;
`from model import PneumoniaModel` (line 8) must find `PneumoniaModel`
in `model.py`, then `from app.models.ml_models import SkinCancerModel`
(line 10) must find `SkinCancerModel` in `app/models/ml_models.py`.
A missing name raises `ImportError`, which aborts module loading before
any route is registered. -/
def loadPredictionsRouter : Except String (List Route) :=
  if "PneumoniaModel" ∈ modelPyTopLevelNames then
    if "SkinCancerModel" ∈ mlModelsTopLevelNames then
      Except.ok predictionsRouterRoutes
    else
      Except.error "ImportError: cannot import name SkinCancerModel from app.models.ml_models"
  else
    Except.error "ImportError: cannot import name PneumoniaModel from model"

/-- The routes the predictions router can actually serve: none when the
module fails to load. -/
def servablePredictionRoutes : List Route :=
  match loadPredictionsRouter with
  | Except.ok rs => rs
  | Except.error _ => []

/-! ## Pneumonia /predict endpoint classification (main.py lines 45-53) -/

/-- The decision logic of the `/predict` handler in `main.py`:
`result = "PNEUMONIA" if score > 0.5 else "NORMAL"` and
`confidence = score if score > 0.5 else 1 - score`. -/
def classifyPneumonia (score : ℚ) : String × ℚ :=
  if score > 1/2 then ("PNEUMONIA", score) else ("NORMAL", 1 - score)

/-! ## Model-conversion scripts (error handling) -/

/-- Abstract environment a conversion script runs in: whether the input
Keras model file exists on disk, whether the primary conversion library
call succeeds, and whether the alternative (SavedModel-based) conversion
succeeds where a script attempts one. -/
structure ConvEnv where
  kerasExists : Bool
  convertOk : Bool
  altOk : Bool
  deriving DecidableEq, Repr

/-- Observable outcome of running one conversion function. -/
structure ConvOutcome where
  errorPrinted : Bool
  outputWritten : Bool
  uncaughtException : Bool
  altAttempted : Bool
  succeeded : Bool
  deriving DecidableEq, Repr

/-- Function `convert_to_tflite` in `Clinical_Risk_convter.py`: a missing Keras
file is reported by printing and `return False`; a failing
`converter.convert()` is caught by `except Exception`, reported by
printing, and then `try_alternative_conversion` is invoked, which either
writes the output file and returns `True` or prints again and returns
`False`.  Nothing re-raises. -/
def clinicalRiskConvert (e : ConvEnv) : ConvOutcome :=
  if !e.kerasExists then
    { errorPrinted := true, outputWritten := false, uncaughtException := false,
      altAttempted := false, succeeded := false }
  else if e.convertOk then
    { errorPrinted := false, outputWritten := true, uncaughtException := false,
      altAttempted := false, succeeded := true }
  else if e.altOk then
    { errorPrinted := true, outputWritten := true, uncaughtException := false,
      altAttempted := true, succeeded := true }
  else
    { errorPrinted := true, outputWritten := false, uncaughtException := false,
      altAttempted := true, succeeded := false }

/-- Function `convert` in `convert_to_tflite.py`: only the `load_model` call sits
in a `try` (catching `OSError`); a missing file is reported by printing
and `return`.  The `converter.convert()` call on line 39 is outside any
`try`, so a failing conversion propagates as an uncaught exception and
no output file is written. -/
def convertPneumoniaTflite (e : ConvEnv) : ConvOutcome :=
  if !e.kerasExists then
    { errorPrinted := true, outputWritten := false, uncaughtException := false,
      altAttempted := false, succeeded := false }
  else if e.convertOk then
    { errorPrinted := false, outputWritten := true, uncaughtException := false,
      altAttempted := false, succeeded := true }
  else
    { errorPrinted := false, outputWritten := false, uncaughtException := true,
      altAttempted := false, succeeded := false }

/-- Function `convert_keras_to_tflite` in `convert_stroke_tflite.py`: a missing
file is reported by printing and `return False`; the whole load-convert-
write sequence sits in one `try` with `except Exception`, which prints
the error (and a traceback) and returns `False`.  The failing
`converter.convert()` happens before the output file is opened, so
nothing is written. -/
def convertStrokeTflite (e : ConvEnv) : ConvOutcome :=
  if !e.kerasExists then
    { errorPrinted := true, outputWritten := false, uncaughtException := false,
      altAttempted := false, succeeded := false }
  else if e.convertOk then
    { errorPrinted := false, outputWritten := true, uncaughtException := false,
      altAttempted := false, succeeded := true }
  else
    { errorPrinted := true, outputWritten := false, uncaughtException := false,
      altAttempted := false, succeeded := false }

/-- The behaviour claim C4 asserts of a conversion function: in the
missing-file case and in the failing-conversion case alike, the error is
caught and reported by printing, the conversion terminates without
re-raising, retrying, or recovering, and a missing Keras file never
yields an output file. -/
def printAndExitBehaviour (f : ConvEnv → ConvOutcome) : Prop :=
  ∀ e : ConvEnv,
    (e.kerasExists = false →
      (f e).errorPrinted = true ∧ (f e).outputWritten = false ∧
      (f e).uncaughtException = false ∧ (f e).altAttempted = false) ∧
    (e.kerasExists = true → e.convertOk = false →
      (f e).errorPrinted = true ∧ (f e).uncaughtException = false ∧
      (f e).altAttempted = false)

/-! ## Stroke training pipeline (train_stroke_model.py) -/

/-- Tail of `np.argmax`: scans the remaining entries, replacing the
current best index only on a strictly larger value, so the first
maximum wins, matching numpy. -/
def npArgmaxGo (bi : ℕ) (bv : ℚ) (i : ℕ) : List ℚ → ℕ
  | [] => bi
  | y :: ys => if bv < y then npArgmaxGo i y (i + 1) ys else npArgmaxGo bi bv (i + 1) ys

/-- Model of `np.argmax` over a rational vector: index of the first maximal
entry (0 on the empty vector, where numpy raises instead). -/
def npArgmax : List ℚ → ℕ
  | [] => 0
  | x :: xs => npArgmaxGo 0 x 1 xs

/-- Elementwise difference `tpr - fpr` of two numpy vectors. -/
def vecSub (a b : List ℚ) : List ℚ := List.zipWith (fun x y => x - y) a b

/-- Threshold selection of `evaluate_model` (train_stroke_model.py lines
331-333): `optimal_idx = np.argmax(tpr - fpr)` and
`optimal_threshold = thresholds[optimal_idx]`. -/
def optimalThreshold (tpr fpr thresholds : List ℚ) : ℚ :=
  thresholds.getD (npArgmax (vecSub tpr fpr)) 0

/-- Test labelling of `evaluate_model` (line 338):
`y_pred = (y_pred_proba >= optimal_threshold).astype(int)`. -/
def thresholdLabels (proba : List ℚ) (t : ℚ) : List ℕ :=
  proba.map fun p => if t ≤ p then 1 else 0

/-- The five original stroke features, in the column order of
`required_features` in `train_stroke_model.py`. -/
def strokeFeatureNames : List String :=
  ["age", "hypertension", "heart_disease", "avg_glucose_level", "bmi"]

/-- The engineered column names, in the insertion order of
`engineer_features`. -/
def engineeredFeatureNames : List String :=
  ["age_glucose", "bmi_glucose", "age_bmi", "health_risk",
   "age_squared", "bmi_squared", "age_group_risk", "glucose_risk", "bmi_category"]

/-- One row of `engineer_features` (train_stroke_model.py lines
185-214): the DataFrame assignments append nine new columns after the
five original ones, each computed from the named original columns. -/
def engineerRow (r : List ℚ) : List ℚ :=
  let age := r.getD 0 0
  let hypertension := r.getD 1 0
  let heartDisease := r.getD 2 0
  let glucose := r.getD 3 0
  let bmi := r.getD 4 0
  r ++ [age * glucose / 100,
        bmi * glucose / 100,
        age * bmi / 100,
        hypertension + heartDisease,
        age ^ 2,
        bmi ^ 2,
        if 60 < age then 2 else if 40 < age then 1 else 0,
        if 200 < glucose then 2 else if 140 < glucose then 1 else 0,
        if 30 < bmi then 2 else if 25 < bmi then 1 else 0]

/-- Function `engineer_features` on a whole feature matrix: returns
`(X_df.values, new_features)`. -/
def engineer_features (X : List (List ℚ)) : List (List ℚ) × List String :=
  (X.map engineerRow, strokeFeatureNames ++ engineeredFeatureNames)

/-- Arguments of the `train_test_split` call in `train_stroke_model.py`
lines 543-545: `test_size=0.2, random_state=42, stratify=y`. -/
structure SplitCallArgs where
  testSize : ℚ
  stratified : Bool
  randomState : ℕ
  deriving DecidableEq, Repr

/-- The literal split call of the stroke pipeline. -/
def strokeSplitCall : SplitCallArgs :=
  { testSize := 1/5, stratified := true, randomState := 42 }

/-- The pipeline variables reassigned between the train-test split and
model fitting, mirroring the Python locals of `train_stroke_model`. -/
structure PipelineVars where
  XTrain : List (List ℚ)
  XTest : List (List ℚ)
  yTrain : List ℕ
  yTest : List ℕ
  deriving Repr

/-- Step 7 of `train_stroke_model` (lines 553-556): feature engineering
reassigns `X_train` and `X_test` only. -/
def featureEngineeringStep (v : PipelineVars) : PipelineVars :=
  { v with XTrain := (engineer_features v.XTrain).1,
           XTest := (engineer_features v.XTest).1 }

/-- Step 8 of `train_stroke_model` (lines 561-577):
`X_train, y_train = smote_tomek.fit_resample(X_train, y_train)`
reassigns the training split only.  The resampler itself is the
imbalanced-learn library call `SMOTETomek(random_state=42).fit_resample`,
taken here as an arbitrary function; the step also records the exact
arguments that call receives. -/
def smoteStep (resample : List (List ℚ) → List ℕ → List (List ℚ) × List ℕ)
    (v : PipelineVars) : PipelineVars × (List (List ℚ) × List ℕ) :=
  let res := resample v.XTrain v.yTrain
  ({ v with XTrain := res.1, yTrain := res.2 }, (v.XTrain, v.yTrain))

/-- The portion of `train_stroke_model` between the stratified split and
feature scaling, starting from the split result `v₀` (step 6) and
applying steps 7 and 8 in the source's order.  Returns the updated
variables together with the arguments passed to the resampler. -/
def pipelineAfterSplit (resample : List (List ℚ) → List ℕ → List (List ℚ) × List ℕ)
    (v₀ : PipelineVars) : PipelineVars × (List (List ℚ) × List ℕ) :=
  smoteStep resample (featureEngineeringStep v₀)

/-- Evaluation metrics handed to `save_model_artifacts`. -/
structure StrokeMetrics where
  accuracy : ℚ
  auc : ℚ
  loss : ℚ
  optimalThreshold : ℚ
  deriving DecidableEq, Repr

/-- Contents of one scaler sidecar JSON file. -/
structure ScalerFile where
  mean : List ℚ
  std : List ℚ
  featureNames : List String
  deriving DecidableEq, Repr

/-- The metadata sidecar fields the claim speaks about. -/
structure MetadataFile where
  optimalThreshold : ℚ
  accuracy : ℚ
  auc : ℚ
  loss : ℚ
  deriving DecidableEq, Repr

/-- The three JSON sidecar files written by `save_model_artifacts`
(train_stroke_model.py lines 440-495): `assets/stroke_scaler.json` slices
the fitted scaler arrays to the first `len(original_features)` entries
and pairs them with the original feature names;
`models/scaler_complete.json` keeps the full arrays with all feature
names; `models/model_metadata.json` stores the optimal threshold and the
accuracy, auc and loss metrics as floats. -/
def save_model_artifacts (scalerMean scalerScale : List ℚ)
    (originalFeatures allFeatures : List String) (m : StrokeMetrics) :
    ScalerFile × ScalerFile × MetadataFile :=
  ({ mean := scalerMean.take originalFeatures.length,
     std := scalerScale.take originalFeatures.length,
     featureNames := originalFeatures },
   { mean := scalerMean, std := scalerScale, featureNames := allFeatures },
   { optimalThreshold := m.optimalThreshold, accuracy := m.accuracy,
     auc := m.auc, loss := m.loss })

/-! ## Grad-CAM (gradcam.py, xai_utils.py)

Both models feed 224x224 inputs whose final convolutional feature maps
are 7x7 (ResNet-18 `layer4`, MobileNetV2 `out_relu`), so the spatial
maps are embedded as 7x7 rational matrices over an arbitrary channel
count, exactly the shapes the two Grad-CAM implementations receive from
their hooks / gradient tape.  Floating-point NaN arising from an
unguarded `0 / 0` is modelled by `Option`: `none` stands for the
all-NaN result. -/

/-- A spatial map of rationals. -/
abbrev Mat (m n : ℕ) := Fin m → Fin n → ℚ

/-- Maximum entry of a nonempty map (`.max()` / `tf.reduce_max`). -/
def matMax {m n : ℕ} [NeZero m] [NeZero n] (f : Mat m n) : ℚ :=
  Finset.univ.sup' Finset.univ_nonempty (fun p : Fin m × Fin n => f p.1 p.2)

/-- The pooling `self.gradients.mean(dim=[2,3])` of `GradCAM.generate`, and equally
`tf.reduce_mean(grads, axis=(0, 1, 2))` of `make_gradcam_heatmap` on a
batch of one: the spatial mean of each channel's gradient map. -/
def poolWeights {C : ℕ} (G : Fin C → Mat 7 7) (c : Fin C) : ℚ :=
  (∑ i : Fin 7, ∑ j : Fin 7, G c i j) / 49

/-- The line `cam = (weights * self.activations).sum(dim=1)` of
`GradCAM.generate`: the channel-weighted sum of the activations. -/
def camOf {C : ℕ} (A G : Fin C → Mat 7 7) : Mat 7 7 :=
  fun i j => ∑ c : Fin C, poolWeights G c * A c i j

/-- The line `heatmap = last_conv_layer_output @ pooled_grads[..., tf.newaxis]`
of `make_gradcam_heatmap`: the same channel-weighted sum, written as a
matrix product. -/
def tfHeatmapRaw {C : ℕ} (A G : Fin C → Mat 7 7) : Mat 7 7 :=
  fun i j => ∑ c : Fin C, A c i j * poolWeights G c

/-- The rectifier `cam.relu()` / `tf.maximum(heatmap, 0)`. -/
def reluMat {m n : ℕ} (f : Mat m n) : Mat m n :=
  fun i j => max (f i j) 0

/-- Source coordinate of `cv2.resize` (INTER_LINEAR) for destination
index `d` when resizing a length-`inSize` axis to length 224:
`(d + 0.5) * inSize / 224 - 0.5`. -/
def srcCoord (inSize d : ℕ) : ℚ :=
  ((d : ℚ) + 1/2) * inSize / 224 - 1/2

/-- Base index and fractional weight used by `cv2.resize`'s bilinear
interpolation along an axis of length `n`, with the border clamping cv2
applies: a source coordinate below 0 sticks to index 0 with weight 0,
one at or beyond `n - 1` sticks to `n - 1` with weight 0. -/
def interpIdx (n : ℕ) (fz : ℚ) : ℕ × ℚ :=
  let z : ℤ := ⌊fz⌋
  if z < 0 then (0, 0)
  else if (n : ℤ) - 1 ≤ z then (n - 1, 0)
  else (z.toNat, fz - z)

/-- Clamp a natural number into `Fin m`. -/
def clampFin {m : ℕ} [NeZero m] (k : ℕ) : Fin m :=
  ⟨min k (m - 1), by have := NeZero.pos m; omega⟩

/-- The call `cv2.resize(cam, (224, 224))` with bilinear interpolation. -/
def resize224 {m n : ℕ} [NeZero m] [NeZero n] (f : Mat m n) : Mat 224 224 :=
  fun r c =>
    let py := interpIdx m (srcCoord m r.val)
    let px := interpIdx n (srcCoord n c.val)
    let y0 : Fin m := clampFin py.1
    let y1 : Fin m := clampFin (py.1 + 1)
    let x0 : Fin n := clampFin px.1
    let x1 : Fin n := clampFin (px.1 + 1)
    (1 - py.2) * (1 - px.2) * f y0 x0 + (1 - py.2) * px.2 * f y0 x1 +
      py.2 * (1 - px.2) * f y1 x0 + py.2 * px.2 * f y1 x1

/-- The final `cam = cam / cam.max()` of `GradCAM.generate`: an
unguarded division by the map's maximum.  When the maximum is zero the
map is identically zero (it is a resized ReLU output), so every entry is
the float division `0 / 0`, i.e. the array is all NaN: `none`. -/
def normalizeByMaxStep {m n : ℕ} [NeZero m] [NeZero n] (f : Mat m n) : Option (Mat m n) :=
  if matMax f = 0 then none else some fun i j => f i j / matMax f

namespace GradCAM

/-- Method `GradCAM.generate` (gradcam.py lines 20-32) after the hooks have
captured activations `A` and gradients `G` of the target layer:
spatial mean-pooling of the gradients, channel-weighted sum of the
activations, `relu`, `cv2.resize` to 224x224, then division by the
resized map's maximum (`none` = the all-NaN array from `0 / 0`). -/
def generate {C : ℕ} (A G : Fin C → Mat 7 7) : Option (Mat 224 224) :=
  let cam := resize224 (reluMat (camOf A G))
  if matMax cam = 0 then none else some fun r c => cam r c / matMax cam

end GradCAM

/-- Function `make_gradcam_heatmap` (xai_utils.py lines 5-34) after the gradient
tape has produced the conv output `A` and gradients `G`: pooled
gradients, channel-weighted sum, then the fused
`tf.maximum(heatmap, 0) / tf.math.reduce_max(heatmap)` - note the
divisor is the maximum of the map before the ReLU.  `none` is the
all-NaN array produced when that maximum is zero (every numerator is
then zero as well). -/
def make_gradcam_heatmap {C : ℕ} (A G : Fin C → Mat 7 7) : Option (Mat 7 7) :=
  let h := tfHeatmapRaw A G
  if matMax h = 0 then none else some fun i j => max (h i j) 0 / matMax h

/-! ### Step-order view of the two Grad-CAM pipelines, at the
granularity of the specification's sentence. -/

/-- The operations the specification's Grad-CAM sentence names, plus the
two overlay operations `process_heatmap_overlay` performs around its
colour-mapping. -/
inductive XaiStep where
  | forwardPass
  | captureViaHooks
  | captureViaTape
  | spatialMeanPool
  | weightedChannelSum
  | reluOp
  | normalizeByMax
  | resizeTo224
  | scaleTo255
  | colorMapOverlay
  | superimpose
  deriving DecidableEq, Repr

/-- The operations of `GradCAM.generate` in source order
(gradcam.py lines 21-32): forward pass (activations captured by the
forward hook), backward pass (gradients captured by the backward hook),
`mean(dim=[2,3])`, `(weights * activations).sum(dim=1)`, `relu()`,
`cv2.resize(..., (224,224))`, and only then `cam / cam.max()`.
No colour-mapping occurs: the handler returns `cam.tolist()` directly. -/
def gradcamGenerateSteps : List XaiStep :=
  [.forwardPass, .captureViaHooks, .spatialMeanPool, .weightedChannelSum,
   .reluOp, .resizeTo224, .normalizeByMax]

/-- The operations of `make_gradcam_heatmap` in source order
(xai_utils.py lines 5-34): forward pass under a `GradientTape`,
`reduce_mean` of the gradients, matrix product with the activations,
and the fused `maximum(heatmap, 0) / reduce_max(heatmap)`. -/
def makeGradcamHeatmapSteps : List XaiStep :=
  [.forwardPass, .captureViaTape, .spatialMeanPool, .weightedChannelSum,
   .reluOp, .normalizeByMax]

/-- The operations of `process_heatmap_overlay` in source order
(xai_utils.py lines 36-52): `np.uint8(255 * heatmap)`,
`cv2.applyColorMap`, `cv2.resize(..., (224, 224))`,
`heatmap * 0.4 + original_img`. -/
def processHeatmapOverlaySteps : List XaiStep :=
  [.scaleTo255, .colorMapOverlay, .resizeTo224, .superimpose]

/-- The full TensorFlow explanation pipeline as `main.py` runs it:
`make_gradcam_heatmap` followed by `process_heatmap_overlay`. -/
def tfXaiPipelineSteps : List XaiStep :=
  makeGradcamHeatmapSteps ++ processHeatmapOverlaySteps

/-- The step order claim C2 asserts, hook-capture variant: forward pass,
capture, spatial mean-pooling, channel-weighted sum, ReLU, normalization
by the maximum, resize to 224x224, colour-mapping. -/
def c2ClaimedTorchSteps : List XaiStep :=
  [.forwardPass, .captureViaHooks, .spatialMeanPool, .weightedChannelSum,
   .reluOp, .normalizeByMax, .resizeTo224, .colorMapOverlay]

/-- The step order claim C2 asserts, gradient-tape variant. -/
def c2ClaimedTfSteps : List XaiStep :=
  [.forwardPass, .captureViaTape, .spatialMeanPool, .weightedChannelSum,
   .reluOp, .normalizeByMax, .resizeTo224, .colorMapOverlay]

/-- The output pixel whose bilinear sample lies closest to input pixel
`i` of a 7-wide axis: destination index `32 * i + 16`. -/
def probe (i : Fin 7) : Fin 224 :=
  ⟨32 * i.val + 16, by omega⟩

/-!
# Theorems
-/

/-- Claim C1, counterexample: the repository declares no route at
`/api/predict/pneumonia`; the pneumonia router path it does declare is
`/predict/pneumonia`, and no `include_router` call exists that could
prepend an `/api` segment. -/
theorem c1Counterexample :
    "/api/predict/pneumonia" ∉ declaredPaths ∧
    "/api/predict/skin_cancer" ∉ declaredPaths ∧
    "/predict/pneumonia" ∈ declaredPaths := by
  refine ⟨?_, ?_, ?_⟩ <;> decide

/-- Claim C1 as amended: the declared HTTP surface is exactly the POST
paths `/predict` (in both FastAPI apps), `/predict/pneumonia` and
`/predict/skin_cancer` (on an `APIRouter` that no application ever
includes, hence with no `/api` path prepended); every declared route is
a POST accepting an uploaded image file and returning a JSON prediction
object. -/
theorem c1Amended :
    declaredPaths = ["/predict", "/predict/pneumonia", "/predict/skin_cancer"] ∧
    includeRouterCalls = [] ∧
    ∀ r ∈ allDeclaredRoutes,
      r.method = "POST" ∧ r.acceptsFileUpload = true ∧ r.returnsJson = true := by
  refine ⟨by decide, rfl, by decide⟩

/-- Claim C3: `app/routes/predictions.py` imports `SkinCancerModel` from
`app.models.ml_models`, but that module binds no such name (its only
class is `ExplainableHealthcareModel`), so loading the router module
raises an ImportError and neither declared endpoint can be served. -/
theorem c3ImportFailure :
    "SkinCancerModel" ∉ mlModelsTopLevelNames ∧
    mlModelsClasses = ["ExplainableHealthcareModel"] ∧
    loadPredictionsRouter =
      Except.error "ImportError: cannot import name SkinCancerModel from app.models.ml_models" ∧
    servablePredictionRoutes = [] := by
  refine ⟨by decide, rfl, rfl, rfl⟩

/-- Claim C4, counterexample: when the Keras file exists and the
conversion library call fails, `convert_to_tflite` in
`Clinical_Risk_convter.py` does not simply print and terminate - it
invokes `try_alternative_conversion`, a recovery attempt that can even
write the output file; and `convert` in `convert_to_tflite.py` does not
catch the failing conversion call at all - the exception propagates
uncaught.  Hence neither conversion function has the claimed
print-and-terminate behaviour. -/
theorem c4Counterexample :
    (clinicalRiskConvert { kerasExists := true, convertOk := false, altOk := true }).altAttempted
        = true ∧
    (clinicalRiskConvert { kerasExists := true, convertOk := false, altOk := true }).outputWritten
        = true ∧
    (convertPneumoniaTflite { kerasExists := true, convertOk := false, altOk := false }).uncaughtException
        = true ∧
    ¬ printAndExitBehaviour clinicalRiskConvert ∧
    ¬ printAndExitBehaviour convertPneumoniaTflite := by
  refine ⟨rfl, rfl, rfl, fun h => ?_, fun h => ?_⟩
  · have hc := ((h { kerasExists := true, convertOk := false, altOk := true }).2 rfl rfl).2.2
    simp [clinicalRiskConvert] at hc
  · have hc := ((h { kerasExists := true, convertOk := false, altOk := false }).2 rfl rfl).2.1
    simp [convertPneumoniaTflite] at hc

/-- Claim C4 as amended: every conversion function reports a missing
Keras model file by printing and terminates without writing any output
file and without raising; on a failing conversion library call,
`convert_keras_to_tflite` (stroke) catches it in a catch-all handler,
prints, and terminates without retrying, `convert_to_tflite`
(Clinical_Risk_convter.py) catches it, prints, and then attempts one
alternative conversion - writing the output exactly when that recovery
succeeds - while `convert` (convert_to_tflite.py) lets the exception
propagate uncaught with no output written. -/
theorem c4Amended :
    printAndExitBehaviour convertStrokeTflite ∧
    (∀ e : ConvEnv, e.kerasExists = false →
      ((clinicalRiskConvert e).errorPrinted = true ∧
        (clinicalRiskConvert e).outputWritten = false ∧
        (clinicalRiskConvert e).uncaughtException = false) ∧
      ((convertPneumoniaTflite e).errorPrinted = true ∧
        (convertPneumoniaTflite e).outputWritten = false ∧
        (convertPneumoniaTflite e).uncaughtException = false)) ∧
    (∀ e : ConvEnv, e.kerasExists = true → e.convertOk = false →
      ((clinicalRiskConvert e).errorPrinted = true ∧
        (clinicalRiskConvert e).uncaughtException = false ∧
        (clinicalRiskConvert e).altAttempted = true ∧
        (clinicalRiskConvert e).outputWritten = e.altOk) ∧
      ((convertPneumoniaTflite e).uncaughtException = true ∧
        (convertPneumoniaTflite e).outputWritten = false)) := by
  refine ⟨fun e => ?_, fun e he => ?_, fun e he hc => ?_⟩
  · obtain ⟨ke, co, ao⟩ := e
    revert ke co ao; decide
  · obtain ⟨ke, co, ao⟩ := e
    cases he
    revert co ao; decide
  · obtain ⟨ke, co, ao⟩ := e
    cases he; cases hc
    revert ao; decide

/-- Witness for `c4Amended` at concrete environments. -/
theorem c4AmendedWitness :
    ((false : Bool) = false ∧
      (clinicalRiskConvert { kerasExists := false, convertOk := true, altOk := true }).outputWritten
        = false) ∧
    ((true : Bool) = true ∧ (false : Bool) = false ∧
      (convertPneumoniaTflite { kerasExists := true, convertOk := false, altOk := false }).uncaughtException
        = true) := by
  constructor
  · exact ⟨rfl,
      ((c4Amended.2.1 { kerasExists := false, convertOk := true, altOk := true } rfl).1).2.1⟩
  · exact ⟨rfl, rfl,
      ((c4Amended.2.2 { kerasExists := true, convertOk := false, altOk := false } rfl rfl).2).1⟩

/-- Claim C10: for every score in `[0, 1]`, the `/predict` handler of
`main.py` reports `PNEUMONIA` exactly when the score is strictly above
`0.5`, reports `NORMAL` otherwise, and the confidence it reports
(`score` above the cut, `1 - score` below) is always at least `0.5`. -/
theorem c10ConfidenceFloor (score : ℚ) (_hlo : 0 ≤ score) (_hhi : score ≤ 1) :
    ((classifyPneumonia score).1 = "PNEUMONIA" ↔ 1/2 < score) ∧
    ((classifyPneumonia score).1 = "NORMAL" ↔ score ≤ 1/2) ∧
    1/2 ≤ (classifyPneumonia score).2 := by
  unfold classifyPneumonia
  split
  case isTrue h =>
    refine ⟨by simpa using h, ?_, le_of_lt h⟩
    constructor
    · intro hs; exact absurd hs (by simp)
    · intro hs; exact absurd h (not_lt.mpr hs)
  case isFalse h =>
    push_neg at h
    refine ⟨?_, by simpa using h, by linarith⟩
    constructor
    · intro hs; exact absurd hs (by simp)
    · intro hs; exact absurd hs (not_lt.mpr h)

/-- Witness for `c10ConfidenceFloor` at score `7/10`. -/
theorem c10ConfidenceFloorWitness :
    (0 : ℚ) ≤ 7/10 ∧ (7 : ℚ)/10 ≤ 1 ∧
    (classifyPneumonia (7/10)).1 = "PNEUMONIA" ∧ 1/2 ≤ (classifyPneumonia (7/10)).2 :=
  ⟨by norm_num, by norm_num,
    (c10ConfidenceFloor (7/10) (by norm_num) (by norm_num)).1.mpr (by norm_num),
    (c10ConfidenceFloor (7/10) (by norm_num) (by norm_num)).2.2⟩

/-- Claim C8: starting from any result of the stratified 80/20
train-test split (the literal call uses `test_size=0.2, stratify=y`),
the pipeline applies the resampler exactly once, to the engineered
training split only, after the split; whatever function the
`SMOTETomek.fit_resample` library call computes, the test samples and
test labels are untouched by the rebalancing step. -/
theorem c8SmoteFrame
    (resample : List (List ℚ) → List ℕ → List (List ℚ) × List ℕ)
    (v₀ : PipelineVars) :
    (pipelineAfterSplit resample v₀).1.XTest = (engineer_features v₀.XTest).1 ∧
    (pipelineAfterSplit resample v₀).1.yTest = v₀.yTest ∧
    (pipelineAfterSplit resample v₀).2 = ((engineer_features v₀.XTrain).1, v₀.yTrain) ∧
    (pipelineAfterSplit resample v₀).1.XTrain
        = (resample (engineer_features v₀.XTrain).1 v₀.yTrain).1 ∧
    (∀ other : List (List ℚ) → List ℕ → List (List ℚ) × List ℕ,
      (pipelineAfterSplit other v₀).1.XTest = (pipelineAfterSplit resample v₀).1.XTest ∧
      (pipelineAfterSplit other v₀).1.yTest = (pipelineAfterSplit resample v₀).1.yTest) ∧
    strokeSplitCall.testSize = 1/5 ∧ strokeSplitCall.stratified = true := by
  refine ⟨rfl, rfl, rfl, rfl, fun other => ⟨rfl, rfl⟩, rfl, rfl⟩

/-- Claim C9: `save_model_artifacts` writes the Flutter scaler file from
exactly the first `len(original_features)` entries of the fitted
scaler's `mean_` and `scale_` arrays paired with the original feature
names, the complete scaler file from the full arrays with all feature
names, and the metadata file carrying the optimal threshold and the
accuracy/auc/loss metrics. -/
theorem c9SidecarFiles (scalerMean scalerScale : List ℚ)
    (originalFeatures allFeatures : List String) (m : StrokeMetrics)
    (h1 : originalFeatures.length ≤ scalerMean.length)
    (h2 : originalFeatures.length ≤ scalerScale.length) :
    (save_model_artifacts scalerMean scalerScale originalFeatures allFeatures m).1.mean.length
        = originalFeatures.length ∧
    (save_model_artifacts scalerMean scalerScale originalFeatures allFeatures m).1.std.length
        = originalFeatures.length ∧
    (∀ i, i < originalFeatures.length →
      (save_model_artifacts scalerMean scalerScale originalFeatures allFeatures m).1.mean.getD i 0
          = scalerMean.getD i 0 ∧
      (save_model_artifacts scalerMean scalerScale originalFeatures allFeatures m).1.std.getD i 0
          = scalerScale.getD i 0) ∧
    (save_model_artifacts scalerMean scalerScale originalFeatures allFeatures m).1.featureNames
        = originalFeatures ∧
    (save_model_artifacts scalerMean scalerScale originalFeatures allFeatures m).2.1
        = { mean := scalerMean, std := scalerScale, featureNames := allFeatures } ∧
    (save_model_artifacts scalerMean scalerScale originalFeatures allFeatures m).2.2
        = { optimalThreshold := m.optimalThreshold, accuracy := m.accuracy,
            auc := m.auc, loss := m.loss } := by
  unfold save_model_artifacts
  refine ⟨?_, ?_, fun i hi => ⟨?_, ?_⟩, rfl, rfl, rfl⟩
  · simpa using h1
  · simpa using h2
  · rw [List.getD_eq_getElem?_getD, List.getD_eq_getElem?_getD,
      List.getElem?_take_of_lt hi]
  · rw [List.getD_eq_getElem?_getD, List.getD_eq_getElem?_getD,
      List.getElem?_take_of_lt hi]

/-- Witness for `c9SidecarFiles` at concrete arrays. -/
theorem c9SidecarFilesWitness :
    (["age", "bmi"] : List String).length ≤ ([1, 2, 3] : List ℚ).length ∧
    (["age", "bmi"] : List String).length ≤ ([4, 5, 6] : List ℚ).length ∧
    (save_model_artifacts [1, 2, 3] [4, 5, 6] ["age", "bmi"] ["age", "bmi", "x"]
        { accuracy := 1, auc := 1, loss := 0, optimalThreshold := 1/2 }).1.mean.getD 1 0
      = (2 : ℚ) := by
  refine ⟨by decide, by decide, ?_⟩
  have h := (c9SidecarFiles [1, 2, 3] [4, 5, 6] ["age", "bmi"] ["age", "bmi", "x"]
    { accuracy := 1, auc := 1, loss := 0, optimalThreshold := 1/2 }
    (by decide) (by decide)).2.2.1 1 (by decide)
  rw [h.1]
  decide

/-- Invariant of the `np.argmax` scan: the result is either the carried
best index, in which case the carried best value dominates the rest of
the list, or the position `i + k` of a strictly better entry that
dominates the whole remaining list. -/
theorem npArgmaxGo_correct (ys : List ℚ) : ∀ (bi i : ℕ) (bv : ℚ),
    (npArgmaxGo bi bv i ys = bi ∧ ∀ y ∈ ys, y ≤ bv) ∨
    (∃ k, k < ys.length ∧ npArgmaxGo bi bv i ys = i + k ∧ bv < ys.getD k 0 ∧
      ∀ y ∈ ys, y ≤ ys.getD k 0) := by
  induction ys with
  | nil =>
    intro bi i bv
    exact Or.inl ⟨rfl, by simp⟩
  | cons y ys ih =>
    intro bi i bv
    by_cases h : bv < y
    · rcases ih i (i + 1) y with ⟨h1, h2⟩ | ⟨k, hk, hj, hlt, hmax⟩
      · refine Or.inr ⟨0, by simp, ?_, by simpa using h, ?_⟩
        · simpa [npArgmaxGo, h] using h1
        · intro z hz
          rcases List.mem_cons.mp hz with rfl | hz
          · simp
          · simpa using h2 z hz
      · refine Or.inr ⟨k + 1, by simpa using hk, ?_, ?_, ?_⟩
        · have : npArgmaxGo bi bv i (y :: ys) = npArgmaxGo i y (i + 1) ys := by
            simp [npArgmaxGo, h]
          omega
        · simpa [List.getD_cons_succ] using h.trans hlt
        · intro z hz
          rcases List.mem_cons.mp hz with rfl | hz
          · simpa [List.getD_cons_succ] using le_of_lt hlt
          · simpa [List.getD_cons_succ] using hmax z hz
    · rcases ih bi (i + 1) bv with ⟨h1, h2⟩ | ⟨k, hk, hj, hlt, hmax⟩
      · refine Or.inl ⟨by simpa [npArgmaxGo, h] using h1, ?_⟩
        intro z hz
        rcases List.mem_cons.mp hz with rfl | hz
        · exact not_lt.mp h
        · exact h2 z hz
      · refine Or.inr ⟨k + 1, by simpa using hk, ?_, ?_, ?_⟩
        · have : npArgmaxGo bi bv i (y :: ys) = npArgmaxGo bi bv (i + 1) ys := by
            simp [npArgmaxGo, h]
          omega
        · simpa [List.getD_cons_succ] using hlt
        · intro z hz
          rcases List.mem_cons.mp hz with rfl | hz
          · simpa [List.getD_cons_succ] using (not_lt.mp h).trans (le_of_lt hlt)
          · simpa [List.getD_cons_succ] using hmax z hz

/-- Model of `np.argmax`: it returns an in-range index whose entry dominates every
entry of the (nonempty) vector. -/
theorem npArgmax_spec (zs : List ℚ) (hzs : zs ≠ []) :
    npArgmax zs < zs.length ∧
    ∀ k, k < zs.length → zs.getD k 0 ≤ zs.getD (npArgmax zs) 0 := by
  cases zs with
  | nil => exact absurd rfl hzs
  | cons x xs =>
    have hgo := npArgmaxGo_correct xs 0 1 x
    rcases hgo with ⟨heq, hall⟩ | ⟨k, hk, heq, hlt, hmax⟩
    · have hj : npArgmax (x :: xs) = 0 := heq
      refine ⟨by simp [hj], ?_⟩
      intro l hl
      rw [hj]
      cases l with
      | zero => simp
      | succ l =>
        have hl : l < xs.length := by simpa using hl
        have hmem : xs.getD l 0 ∈ xs := by
          rw [List.getD_eq_getElem?_getD, List.getElem?_eq_getElem hl]
          exact List.getElem_mem hl
        simpa [List.getD_cons_succ] using hall _ hmem
    · have hj : npArgmax (x :: xs) = 1 + k := heq
      have hjd : (x :: xs).getD (npArgmax (x :: xs)) 0 = xs.getD k 0 := by
        rw [hj, Nat.add_comm, List.getD_cons_succ]
      refine ⟨by simp [hj]; omega, ?_⟩
      intro l hl
      rw [hjd]
      cases l with
      | zero => simpa using le_of_lt hlt
      | succ l =>
        have hl : l < xs.length := by simpa using hl
        have hmem : xs.getD l 0 ∈ xs := by
          rw [List.getD_eq_getElem?_getD, List.getElem?_eq_getElem hl]
          exact List.getElem_mem hl
        simpa [List.getD_cons_succ] using hmax _ hmem

/-- Claim C5: `evaluate_model` selects the classification threshold as
`thresholds[np.argmax(tpr - fpr)]` - an index maximising the Youden J
statistic `tpr - fpr` over the ROC curve - and labels a test prediction
1 exactly when its predicted probability is at least that threshold. -/
theorem c5ThresholdSelection (tpr fpr thresholds proba : List ℚ)
    (hfpr : fpr.length = tpr.length) (hthr : thresholds.length = tpr.length)
    (hne : tpr ≠ []) :
    npArgmax (vecSub tpr fpr) < thresholds.length ∧
    optimalThreshold tpr fpr thresholds
        = thresholds.getD (npArgmax (vecSub tpr fpr)) 0 ∧
    (∀ k, k < (vecSub tpr fpr).length →
      (vecSub tpr fpr).getD k 0
          ≤ (vecSub tpr fpr).getD (npArgmax (vecSub tpr fpr)) 0) ∧
    (thresholdLabels proba (optimalThreshold tpr fpr thresholds)).length
        = proba.length ∧
    (∀ i, i < proba.length →
      ((thresholdLabels proba (optimalThreshold tpr fpr thresholds)).getD i 0 = 1
        ↔ optimalThreshold tpr fpr thresholds ≤ proba.getD i 0)) := by
  have hd : (vecSub tpr fpr).length = tpr.length := by
    simp [vecSub, hfpr]
  have hdne : vecSub tpr fpr ≠ [] := by
    have : 0 < (vecSub tpr fpr).length := by
      rw [hd]
      exact List.length_pos.mpr hne
    exact List.ne_nil_of_length_pos this
  obtain ⟨hlt, hmax⟩ := npArgmax_spec (vecSub tpr fpr) hdne
  refine ⟨by omega, rfl, hmax, by simp [thresholdLabels], ?_⟩
  intro i hi
  have hlab : (thresholdLabels proba (optimalThreshold tpr fpr thresholds)).getD i 0
      = if optimalThreshold tpr fpr thresholds ≤ proba.getD i 0 then 1 else 0 := by
    unfold thresholdLabels
    rw [List.getD_eq_getElem?_getD, List.getElem?_map, List.getElem?_eq_getElem hi,
      List.getD_eq_getElem?_getD, List.getElem?_eq_getElem hi]
    rfl
  rw [hlab]
  split
  case isTrue h => simpa using h
  case isFalse h => simpa using h

/-- Witness for `c5ThresholdSelection` at a concrete ROC curve. -/
theorem c5ThresholdSelectionWitness :
    ([0, 0] : List ℚ).length = ([0, 1] : List ℚ).length ∧
    ([3/4, 1/2] : List ℚ).length = ([0, 1] : List ℚ).length ∧
    ([0, 1] : List ℚ) ≠ [] ∧
    (thresholdLabels [1/5, 3/5] (optimalThreshold [0, 1] [0, 0] [3/4, 1/2])).getD 1 0 = 1 := by
  have hthr : optimalThreshold [0, 1] [0, 0] [3/4, 1/2] = (1/2 : ℚ) := by
    norm_num [optimalThreshold, vecSub, npArgmax, npArgmaxGo]
  refine ⟨rfl, rfl, by simp, ?_⟩
  exact (((c5ThresholdSelection [0, 1] [0, 0] [3/4, 1/2] [1/5, 3/5]
    rfl rfl (by simp)).2.2.2.2) 1 (by norm_num)).mpr (by rw [hthr]; norm_num)

/-- The nested `np.where(x > b, 2, np.where(x > a, 1, 0))` pattern used
for the three tier columns is the 0/1/2 indicator with cutoffs `a < b`. -/
theorem tierValue_spec (x a b : ℚ) (hab : a < b) :
    ((if b < x then (2 : ℚ) else if a < x then 1 else 0) = 2 ↔ b < x) ∧
    ((if b < x then (2 : ℚ) else if a < x then 1 else 0) = 1 ↔ a < x ∧ x ≤ b) ∧
    ((if b < x then (2 : ℚ) else if a < x then 1 else 0) = 0 ↔ x ≤ a) := by
  by_cases h1 : b < x
  · rw [if_pos h1]
    refine ⟨by simpa using h1, ?_, ?_⟩
    · constructor
      · intro h; norm_num at h
      · rintro ⟨_, hx⟩; exact absurd h1 (not_lt.mpr hx)
    · constructor
      · intro h; norm_num at h
      · intro hx; exact absurd h1 (not_lt.mpr (hx.trans hab.le))
  · rw [if_neg h1]
    by_cases h2 : a < x
    · rw [if_pos h2]
      refine ⟨?_, ?_, ?_⟩
      · constructor
        · intro h; norm_num at h
        · intro hx; exact absurd hx h1
      · simp [h2, not_lt.mp h1]
      · constructor
        · intro h; norm_num at h
        · intro hx; exact absurd h2 (not_lt.mpr hx)
    · rw [if_neg h2]
      refine ⟨?_, ?_, ?_⟩
      · constructor
        · intro h; norm_num at h
        · intro hx; exact absurd ((not_lt.mp h2).trans_lt hab) (not_lt.mpr hx.le)
      · constructor
        · intro h; norm_num at h
        · rintro ⟨hx, _⟩; exact absurd hx h2
      · simp [not_lt.mp h2]

/-- Per-row specification of `engineer_features`: on a length-5 row the
engineered row keeps the five original entries as its first five
columns and appends the nine engineered values, each given by its
formula over the named original columns. -/
theorem engineerRow_spec (r : List ℚ) (hr : r.length = 5) :
    (engineerRow r).length = 14 ∧
    (engineerRow r).take 5 = r ∧
    (engineerRow r).getD 5 0 = r.getD 0 0 * r.getD 3 0 / 100 ∧
    (engineerRow r).getD 6 0 = r.getD 4 0 * r.getD 3 0 / 100 ∧
    (engineerRow r).getD 7 0 = r.getD 0 0 * r.getD 4 0 / 100 ∧
    (engineerRow r).getD 8 0 = r.getD 1 0 + r.getD 2 0 ∧
    (engineerRow r).getD 9 0 = r.getD 0 0 ^ 2 ∧
    (engineerRow r).getD 10 0 = r.getD 4 0 ^ 2 ∧
    (engineerRow r).getD 11 0
        = (if 60 < r.getD 0 0 then 2 else if 40 < r.getD 0 0 then 1 else 0) ∧
    (engineerRow r).getD 12 0
        = (if 200 < r.getD 3 0 then 2 else if 140 < r.getD 3 0 then 1 else 0) ∧
    (engineerRow r).getD 13 0
        = (if 30 < r.getD 4 0 then 2 else if 25 < r.getD 4 0 then 1 else 0) := by
  have hget : ∀ k : ℕ, 5 ≤ k →
      (engineerRow r).getD k 0 =
        [r.getD 0 0 * r.getD 3 0 / 100,
         r.getD 4 0 * r.getD 3 0 / 100,
         r.getD 0 0 * r.getD 4 0 / 100,
         r.getD 1 0 + r.getD 2 0,
         r.getD 0 0 ^ 2,
         r.getD 4 0 ^ 2,
         if 60 < r.getD 0 0 then 2 else if 40 < r.getD 0 0 then 1 else 0,
         if 200 < r.getD 3 0 then 2 else if 140 < r.getD 3 0 then 1 else 0,
         if 30 < r.getD 4 0 then 2 else if 25 < r.getD 4 0 then 1 else 0].getD (k - 5) 0 := by
    intro k hk
    simp only [engineerRow]
    rw [List.getD_append_right _ _ _ _ (by omega : r.length ≤ k), hr]
  refine ⟨?_, ?_, ?_, ?_, ?_, ?_, ?_, ?_, ?_, ?_, ?_⟩
  · unfold engineerRow
    simp [hr]
  · unfold engineerRow
    rw [show 5 = r.length from hr.symm]
    exact List.take_left r _
  · rw [hget 5 (by omega)]; rfl
  · rw [hget 6 (by omega)]; rfl
  · rw [hget 7 (by omega)]; rfl
  · rw [hget 8 (by omega)]; rfl
  · rw [hget 9 (by omega)]; rfl
  · rw [hget 10 (by omega)]; rfl
  · rw [hget 11 (by omega)]; rfl
  · rw [hget 12 (by omega)]; rfl
  · rw [hget 13 (by omega)]; rfl

/-- Claim C7: on every feature matrix of length-5 rows over the stroke
feature names, `engineer_features` appends exactly 9 new columns after
the 5 originals (column names included), leaves every original entry in
place, and fills the new columns with the fixed interaction,
polynomial, and 0/1/2 tier formulas of the claim. -/
theorem c7EngineerFeatures (X : List (List ℚ)) (hX : ∀ r ∈ X, r.length = 5) :
    (engineer_features X).1.length = X.length ∧
    (engineer_features X).2 = strokeFeatureNames ++ engineeredFeatureNames ∧
    (engineer_features X).2.length = 5 + 9 ∧
    engineeredFeatureNames.length = 9 ∧
    ∀ i, i < X.length →
      ((engineer_features X).1.getD i []).length = 14 ∧
      ((engineer_features X).1.getD i []).take 5 = X.getD i [] ∧
      ((engineer_features X).1.getD i []).getD 5 0
          = (X.getD i []).getD 0 0 * (X.getD i []).getD 3 0 / 100 ∧
      ((engineer_features X).1.getD i []).getD 6 0
          = (X.getD i []).getD 4 0 * (X.getD i []).getD 3 0 / 100 ∧
      ((engineer_features X).1.getD i []).getD 7 0
          = (X.getD i []).getD 0 0 * (X.getD i []).getD 4 0 / 100 ∧
      ((engineer_features X).1.getD i []).getD 8 0
          = (X.getD i []).getD 1 0 + (X.getD i []).getD 2 0 ∧
      ((engineer_features X).1.getD i []).getD 9 0 = (X.getD i []).getD 0 0 ^ 2 ∧
      ((engineer_features X).1.getD i []).getD 10 0 = (X.getD i []).getD 4 0 ^ 2 ∧
      (((engineer_features X).1.getD i []).getD 11 0 = 2 ↔ 60 < (X.getD i []).getD 0 0) ∧
      (((engineer_features X).1.getD i []).getD 11 0 = 1
          ↔ 40 < (X.getD i []).getD 0 0 ∧ (X.getD i []).getD 0 0 ≤ 60) ∧
      (((engineer_features X).1.getD i []).getD 11 0 = 0 ↔ (X.getD i []).getD 0 0 ≤ 40) ∧
      (((engineer_features X).1.getD i []).getD 12 0 = 2 ↔ 200 < (X.getD i []).getD 3 0) ∧
      (((engineer_features X).1.getD i []).getD 12 0 = 1
          ↔ 140 < (X.getD i []).getD 3 0 ∧ (X.getD i []).getD 3 0 ≤ 200) ∧
      (((engineer_features X).1.getD i []).getD 12 0 = 0 ↔ (X.getD i []).getD 3 0 ≤ 140) ∧
      (((engineer_features X).1.getD i []).getD 13 0 = 2 ↔ 30 < (X.getD i []).getD 4 0) ∧
      (((engineer_features X).1.getD i []).getD 13 0 = 1
          ↔ 25 < (X.getD i []).getD 4 0 ∧ (X.getD i []).getD 4 0 ≤ 30) ∧
      (((engineer_features X).1.getD i []).getD 13 0 = 0 ↔ (X.getD i []).getD 4 0 ≤ 25) := by
  refine ⟨by simp [engineer_features], rfl, rfl, rfl, ?_⟩
  intro i hi
  have hrow : (engineer_features X).1.getD i [] = engineerRow (X.getD i []) := by
    unfold engineer_features
    rw [List.getD_eq_getElem?_getD, List.getElem?_map, List.getElem?_eq_getElem hi,
      List.getD_eq_getElem?_getD, List.getElem?_eq_getElem hi]
    rfl
  have hmem : X.getD i [] ∈ X := by
    rw [List.getD_eq_getElem?_getD, List.getElem?_eq_getElem hi]
    exact List.getElem_mem hi
  have hr : (X.getD i []).length = 5 := hX _ hmem
  obtain ⟨e1, e2, e3, e4, e5, e6, e7, e8, e9, e10, e11⟩ := engineerRow_spec _ hr
  obtain ⟨t1a, t1b, t1c⟩ := tierValue_spec ((X.getD i []).getD 0 0) 40 60 (by norm_num)
  obtain ⟨t2a, t2b, t2c⟩ := tierValue_spec ((X.getD i []).getD 3 0) 140 200 (by norm_num)
  obtain ⟨t3a, t3b, t3c⟩ := tierValue_spec ((X.getD i []).getD 4 0) 25 30 (by norm_num)
  rw [hrow]
  exact ⟨e1, e2, e3, e4, e5, e6, e7, e8,
    e9 ▸ t1a, e9 ▸ t1b, e9 ▸ t1c,
    e10 ▸ t2a, e10 ▸ t2b, e10 ▸ t2c,
    e11 ▸ t3a, e11 ▸ t3b, e11 ▸ t3c⟩

/-- Witness for `c7EngineerFeatures` at a concrete one-row matrix. -/
theorem c7EngineerFeaturesWitness :
    (∀ r ∈ ([[65, 1, 0, 150, 28]] : List (List ℚ)), r.length = 5) ∧
    ((engineer_features [[65, 1, 0, 150, 28]]).1.getD 0 []).take 5 = [65, 1, 0, 150, 28] ∧
    (((engineer_features [[65, 1, 0, 150, 28]]).1.getD 0 []).getD 11 0 = 2
      ↔ (60 : ℚ) < 65) := by
  have h := c7EngineerFeatures [[65, 1, 0, 150, 28]] (by intro r hr; simp at hr; simp [hr])
  have h0 := h.2.2.2.2 0 (by norm_num)
  refine ⟨by intro r hr; simp at hr; simp [hr], ?_, ?_⟩
  · simpa using h0.2.1
  · simpa using h0.2.2.2.2.2.2.2.2.1

/-- Claim C2, counterexample: neither implementation follows the
claimed step order.  `GradCAM.generate` resizes before it normalizes
and never colour-maps; the TensorFlow pipeline colour-maps before it
resizes. -/
theorem c2Counterexample :
    gradcamGenerateSteps ≠ c2ClaimedTorchSteps ∧
    tfXaiPipelineSteps ≠ c2ClaimedTfSteps := by
  constructor <;> decide

/-- Claim C2 as amended: both implementations share the claimed head -
forward pass, capture via hooks or tape, spatial mean-pooling of the
gradients, channel-weighted sum of the activations (the two weighted
sums agree entrywise), then ReLU - but `GradCAM.generate` then resizes
to 224x224 and only afterwards divides by the (resized) map's maximum,
performing no colour-mapping at all, while `make_gradcam_heatmap`
normalizes immediately after the ReLU (dividing by the maximum of the
map taken before the ReLU) and `process_heatmap_overlay` then rescales
to 0-255, colour-maps, resizes to 224x224 and superimposes, so that
colour-mapping precedes the resize on the TensorFlow path. -/
theorem c2Amended :
    gradcamGenerateSteps
        = [.forwardPass, .captureViaHooks, .spatialMeanPool, .weightedChannelSum,
           .reluOp, .resizeTo224, .normalizeByMax] ∧
    gradcamGenerateSteps.indexOf .resizeTo224
        < gradcamGenerateSteps.indexOf .normalizeByMax ∧
    XaiStep.colorMapOverlay ∉ gradcamGenerateSteps ∧
    tfXaiPipelineSteps
        = [.forwardPass, .captureViaTape, .spatialMeanPool, .weightedChannelSum,
           .reluOp, .normalizeByMax, .scaleTo255, .colorMapOverlay,
           .resizeTo224, .superimpose] ∧
    tfXaiPipelineSteps.indexOf .normalizeByMax
        < tfXaiPipelineSteps.indexOf .colorMapOverlay ∧
    tfXaiPipelineSteps.indexOf .colorMapOverlay
        < tfXaiPipelineSteps.indexOf .resizeTo224 ∧
    (∀ (C : ℕ) (A G : Fin C → Mat 7 7),
      GradCAM.generate A G = normalizeByMaxStep (resize224 (reluMat (camOf A G)))) ∧
    (∀ (C : ℕ) (A G : Fin C → Mat 7 7), tfHeatmapRaw A G = camOf A G) ∧
    (∀ (C : ℕ) (A G : Fin C → Mat 7 7),
      make_gradcam_heatmap A G =
        if matMax (tfHeatmapRaw A G) = 0 then none
        else some fun i j => reluMat (tfHeatmapRaw A G) i j / matMax (tfHeatmapRaw A G)) := by
  refine ⟨rfl, by decide, by decide, rfl, by decide, by decide, ?_, ?_, ?_⟩
  · intro C A G
    rfl
  · intro C A G
    funext i j
    exact Finset.sum_congr rfl fun c _ => mul_comm _ _
  · intro C A G
    rfl

/-! ### Helper lemmas for the Grad-CAM normalization claim -/

theorem reluMat_nonneg {m n : ℕ} (f : Mat m n) (i : Fin m) (j : Fin n) :
    0 ≤ reluMat f i j :=
  le_max_right _ _

theorem reluMat_of_nonpos {m n : ℕ} (f : Mat m n) (h : ∀ i j, f i j ≤ 0) :
    reluMat f = fun _ _ => 0 := by
  funext i j
  exact max_eq_right (h i j)

theorem resize224_const_zero {m n : ℕ} [NeZero m] [NeZero n] :
    resize224 (m := m) (n := n) (fun _ _ => 0) = fun _ _ => 0 := by
  funext r c
  simp [resize224]

theorem matMax_const_zero {m n : ℕ} [NeZero m] [NeZero n] :
    matMax (m := m) (n := n) (fun _ _ => 0) = 0 := by
  simp [matMax]

theorem le_matMax {m n : ℕ} [NeZero m] [NeZero n] (f : Mat m n) (i : Fin m) (j : Fin n) :
    f i j ≤ matMax f :=
  Finset.le_sup' (fun p : Fin m × Fin n => f p.1 p.2) (Finset.mem_univ (i, j))

theorem matMax_le {m n : ℕ} [NeZero m] [NeZero n] (f : Mat m n) (b : ℚ)
    (h : ∀ i j, f i j ≤ b) : matMax f ≤ b :=
  Finset.sup'_le _ _ fun p _ => h p.1 p.2

theorem exists_eq_matMax {m n : ℕ} [NeZero m] [NeZero n] (f : Mat m n) :
    ∃ i j, f i j = matMax f := by
  obtain ⟨p, -, hp⟩ :=
    Finset.exists_mem_eq_sup' (Finset.univ_nonempty) (fun p : Fin m × Fin n => f p.1 p.2)
  exact ⟨p.1, p.2, hp.symm⟩

theorem interpIdx_snd_nonneg (n : ℕ) (fz : ℚ) : 0 ≤ (interpIdx n fz).2 := by
  simp only [interpIdx]
  split_ifs
  · simp
  · simp
  · exact sub_nonneg.mpr (Int.floor_le fz)

theorem interpIdx_snd_le_one (n : ℕ) (fz : ℚ) : (interpIdx n fz).2 ≤ 1 := by
  simp only [interpIdx]
  split_ifs
  · norm_num
  · norm_num
  · have := Int.lt_floor_add_one fz
    push_cast
    linarith

theorem resize224_nonneg {m n : ℕ} [NeZero m] [NeZero n] (f : Mat m n)
    (hf : ∀ i j, 0 ≤ f i j) (r c : Fin 224) : 0 ≤ resize224 f r c := by
  simp only [resize224]
  have h1 := interpIdx_snd_nonneg m (srcCoord m r.val)
  have h2 := interpIdx_snd_le_one m (srcCoord m r.val)
  have h3 := interpIdx_snd_nonneg n (srcCoord n c.val)
  have h4 := interpIdx_snd_le_one n (srcCoord n c.val)
  have e1 : (0 : ℚ) ≤ 1 - (interpIdx m (srcCoord m r.val)).2 := by linarith
  have e2 : (0 : ℚ) ≤ 1 - (interpIdx n (srcCoord n c.val)).2 := by linarith
  refine add_nonneg (add_nonneg (add_nonneg ?_ ?_) ?_) ?_ <;>
    exact mul_nonneg (mul_nonneg (by assumption) (by assumption)) (hf _ _)

/-- On a 7-wide axis the bilinear sample for destination index
`32 * k + 16` lands at source coordinate `k + 1/64`: base index `k`,
fractional weight `1/64` (0 at the clamped last index). -/
theorem interpIdx7 (k : ℕ) (hk : k < 7) :
    interpIdx 7 (srcCoord 7 (32 * k + 16)) = (k, if k = 6 then 0 else 1/64) := by
  have hsrc : srcCoord 7 (32 * k + 16) = (k : ℚ) + 1/64 := by
    unfold srcCoord
    push_cast
    ring
  have hcast : ((k : ℤ) : ℚ) = (k : ℚ) := by push_cast; ring
  have hfloor : ⌊srcCoord 7 (32 * k + 16)⌋ = (k : ℤ) := by
    rw [hsrc, ← hcast, Int.floor_int_add]
    have : ⌊(1/64 : ℚ)⌋ = 0 := by
      apply Int.floor_eq_zero_iff.mpr
      constructor <;> norm_num
    omega
  simp only [interpIdx, hfloor]
  by_cases hk6 : k = 6
  · subst hk6
    norm_num
  · rw [if_neg (by omega : ¬(k : ℤ) < 0),
      if_neg (by omega : ¬((7 : ℕ) : ℤ) - 1 ≤ (k : ℤ)), if_neg hk6]
    refine Prod.ext ?_ ?_
    · simp
    · simp only [hsrc, hcast]
      ring

/-- If a nonnegative 7x7 map has a positive entry at `(i, j)`, the
bilinear resize to 224x224 is positive at the probe pixel
`(32 i + 16, 32 j + 16)`. -/
theorem resize224_pos_probe (f : Mat 7 7) (hf : ∀ i j, 0 ≤ f i j)
    (i j : Fin 7) (hij : 0 < f i j) :
    0 < resize224 f (probe i) (probe j) := by
  have hclamp : ∀ a : Fin 7, clampFin (m := 7) a.val = a := by
    intro a
    apply Fin.ext
    simp [clampFin]
    omega
  have hprobe : ∀ a : Fin 7, (probe a).val = 32 * a.val + 16 := fun a => rfl
  simp only [resize224, hprobe, interpIdx7 i.val i.isLt, interpIdx7 j.val j.isLt]
  rw [hclamp i, hclamp j]
  set dy := if i.val = 6 then (0 : ℚ) else 1/64 with hdy
  set dx := if j.val = 6 then (0 : ℚ) else 1/64 with hdx
  have hdy0 : 0 ≤ dy := by rw [hdy]; split_ifs <;> norm_num
  have hdy1 : dy ≤ 1/64 := by rw [hdy]; split_ifs <;> norm_num
  have hdx0 : 0 ≤ dx := by rw [hdx]; split_ifs <;> norm_num
  have hdx1 : dx ≤ 1/64 := by rw [hdx]; split_ifs <;> norm_num
  have hmain : 0 < (1 - dy) * (1 - dx) * f i j :=
    mul_pos (mul_pos (by linarith) (by linarith)) hij
  have t2 : 0 ≤ (1 - dy) * dx * f i (clampFin (j.val + 1)) :=
    mul_nonneg (mul_nonneg (by linarith) hdx0) (hf _ _)
  have t3 : 0 ≤ dy * (1 - dx) * f (clampFin (i.val + 1)) j :=
    mul_nonneg (mul_nonneg hdy0 (by linarith)) (hf _ _)
  have t4 : 0 ≤ dy * dx * f (clampFin (i.val + 1)) (clampFin (j.val + 1)) :=
    mul_nonneg (mul_nonneg hdy0 hdx0) (hf _ _)
  linarith

/-- Claim C6: both Grad-CAM normalizations divide by the map's maximum
without a guard.  If every entry of the pooled class-activation map is
non-positive, the ReLU zeroes the map, `GradCAM.generate` divides zero
by zero and returns the all-NaN array (`none`), and the divisor of
`make_gradcam_heatmap` is non-positive (the all-NaN array when it is
zero, an all-zero map when it is negative, so never a map with maximum
1); when some entry is positive, both return a map whose values lie in
`[0, 1]` with maximum exactly 1. -/
theorem c6NormalizationGuard :
    ∀ (C : ℕ) (A G : Fin C → Mat 7 7),
      ((∀ i j, camOf A G i j ≤ 0) → GradCAM.generate A G = none) ∧
      ((∀ i j, tfHeatmapRaw A G i j ≤ 0) →
        matMax (tfHeatmapRaw A G) ≤ 0 ∧
        (matMax (tfHeatmapRaw A G) = 0 → make_gradcam_heatmap A G = none) ∧
        (matMax (tfHeatmapRaw A G) < 0 →
          make_gradcam_heatmap A G = some fun _ _ => 0)) ∧
      ((∃ i j, 0 < camOf A G i j) →
        ∃ out, GradCAM.generate A G = some out ∧
          (∀ r c, 0 ≤ out r c ∧ out r c ≤ 1) ∧ ∃ r c, out r c = 1) ∧
      ((∃ i j, 0 < tfHeatmapRaw A G i j) →
        ∃ out, make_gradcam_heatmap A G = some out ∧
          (∀ i j, 0 ≤ out i j ∧ out i j ≤ 1) ∧ ∃ i j, out i j = 1) := by
  intro C A G
  refine ⟨?_, ?_, ?_, ?_⟩
  · intro h
    have hrelu := reluMat_of_nonpos _ h
    simp [GradCAM.generate, hrelu, resize224_const_zero, matMax_const_zero]
  · intro h
    have hM : matMax (tfHeatmapRaw A G) ≤ 0 := matMax_le _ _ h
    refine ⟨hM, fun h0 => ?_, fun hneg => ?_⟩
    · simp only [make_gradcam_heatmap, if_pos h0]
    · simp only [make_gradcam_heatmap, if_neg (ne_of_lt hneg)]
      refine congrArg some (funext fun i => funext fun j => ?_)
      rw [max_eq_right (h i j), zero_div]
  · rintro ⟨i, j, hij⟩
    have hgnn : ∀ a b, 0 ≤ reluMat (camOf A G) a b := reluMat_nonneg _
    have hgij : 0 < reluMat (camOf A G) i j := lt_of_lt_of_le hij (le_max_left _ _)
    have hres := resize224_pos_probe _ hgnn i j hgij
    have hM : 0 < matMax (resize224 (reluMat (camOf A G))) :=
      lt_of_lt_of_le hres (le_matMax _ _ _)
    refine ⟨fun r c => resize224 (reluMat (camOf A G)) r c
        / matMax (resize224 (reluMat (camOf A G))), ?_, ?_, ?_⟩
    · simp only [GradCAM.generate, if_neg (ne_of_gt hM)]
    · intro r c
      exact ⟨div_nonneg (resize224_nonneg _ hgnn r c) hM.le,
        (div_le_one hM).mpr (le_matMax _ r c)⟩
    · obtain ⟨r, c, hrc⟩ := exists_eq_matMax (resize224 (reluMat (camOf A G)))
      refine ⟨r, c, ?_⟩
      show resize224 (reluMat (camOf A G)) r c
          / matMax (resize224 (reluMat (camOf A G))) = 1
      rw [hrc]
      exact div_self (ne_of_gt hM)
  · rintro ⟨i, j, hij⟩
    have hM : 0 < matMax (tfHeatmapRaw A G) := lt_of_lt_of_le hij (le_matMax _ i j)
    refine ⟨fun a b => max (tfHeatmapRaw A G a b) 0 / matMax (tfHeatmapRaw A G),
      ?_, ?_, ?_⟩
    · simp only [make_gradcam_heatmap, if_neg (ne_of_gt hM)]
    · intro a b
      refine ⟨div_nonneg (le_max_right _ _) hM.le, (div_le_one hM).mpr ?_⟩
      exact max_le (le_matMax _ a b) hM.le
    · obtain ⟨a, b, hab⟩ := exists_eq_matMax (tfHeatmapRaw A G)
      refine ⟨a, b, ?_⟩
      show max (tfHeatmapRaw A G a b) 0 / matMax (tfHeatmapRaw A G) = 1
      rw [hab, max_eq_left hM.le]
      exact div_self (ne_of_gt hM)

/-- Witness for `c6NormalizationGuard`: with all-one activations,
all-zero gradients give an all-zero class-activation map and the NaN
(`none`) outcome, while all-one gradients give a positive map and a
normalized output with maximum exactly 1, for both implementations. -/
theorem c6NormalizationGuardWitness :
    (∀ i j, camOf (C := 1) (fun _ _ _ => 1) (fun _ _ _ => 0) i j ≤ 0) ∧
    GradCAM.generate (C := 1) (fun _ _ _ => 1) (fun _ _ _ => 0) = none ∧
    (∀ i j, tfHeatmapRaw (C := 1) (fun _ _ _ => 1) (fun _ _ _ => 0) i j ≤ 0) ∧
    matMax (tfHeatmapRaw (C := 1) (fun _ _ _ => 1) (fun _ _ _ => 0)) ≤ 0 ∧
    (∃ i j, 0 < camOf (C := 1) (fun _ _ _ => 1) (fun _ _ _ => 1) i j) ∧
    (∃ out, GradCAM.generate (C := 1) (fun _ _ _ => 1) (fun _ _ _ => 1) = some out ∧
      (∀ r c, 0 ≤ out r c ∧ out r c ≤ 1) ∧ ∃ r c, out r c = 1) ∧
    (∃ i j, 0 < tfHeatmapRaw (C := 1) (fun _ _ _ => 1) (fun _ _ _ => 1) i j) ∧
    (∃ out, make_gradcam_heatmap (C := 1) (fun _ _ _ => 1) (fun _ _ _ => 1) = some out ∧
      (∀ i j, 0 ≤ out i j ∧ out i j ≤ 1) ∧ ∃ i j, out i j = 1) := by
  have hz : ∀ i j, camOf (C := 1) (fun _ _ _ => 1) (fun _ _ _ => 0) i j ≤ 0 := by
    intro i j
    simp [camOf, poolWeights]
  have hzTf : ∀ i j, tfHeatmapRaw (C := 1) (fun _ _ _ => 1) (fun _ _ _ => 0) i j ≤ 0 := by
    intro i j
    simp [tfHeatmapRaw, poolWeights]
  have hp : ∃ i j, 0 < camOf (C := 1) (fun _ _ _ => 1) (fun _ _ _ => 1) i j := by
    refine ⟨0, 0, ?_⟩
    simp [camOf, poolWeights, Finset.sum_const, Finset.card_univ]
  have hpTf : ∃ i j, 0 < tfHeatmapRaw (C := 1) (fun _ _ _ => 1) (fun _ _ _ => 1) i j := by
    refine ⟨0, 0, ?_⟩
    simp [tfHeatmapRaw, poolWeights, Finset.sum_const, Finset.card_univ]
  exact ⟨hz, (c6NormalizationGuard 1 _ _).1 hz, hzTf,
    ((c6NormalizationGuard 1 _ _).2.1 hzTf).1, hp,
    (c6NormalizationGuard 1 _ _).2.2.1 hp, hpTf,
    (c6NormalizationGuard 1 _ _).2.2.2 hpTf⟩

end ExplainableAI
